import Mathlib

/-!
Verification development for the OpenList upload-handlers file
(`server/handles` package: `FsStream`, `FsForm`, `generateVideoThumbnail`
and its helpers).  The Go code is embedded shallowly: every effectful
collaborator call (the `fs` storage layer, `os` temp files, `exec`
subprocesses) is represented by an oracle field in an environment
structure holding that call's result, and each Go function becomes a
pure Lean function from its environment to its return value together
with a trace of the effect events it performed, in program order.
Machine floating-point values are modelled as rationals; every concrete
duration used in the theorems below (3725.5, 100, 3, 0) and every
intermediate of `formatTime` on them is exactly representable in IEEE
binary64, so the rational computation agrees with the Go one on these
inputs.
-/

namespace OpenList

/-!
Exact rational arithmetic, written out on numerator and denominator via
`Rat.divInt` so that every operation reduces during kernel evaluation
(the library's `Rat.add`/`Rat.sub`/`Rat.mul`/`Rat.div` are marked
irreducible).  `qAdd a b = a + b`, `qSub a b = a - b`,
`qMul a b = a * b` and, for a non-zero divisor, `qDiv a b = a / b`:
each is the textbook cross-multiplication formula, normalised by
`Rat.divInt`.
-/

/-- Exact rational addition. -/
def qAdd (a b : ℚ) : ℚ :=
  Rat.divInt (a.num * Int.ofNat b.den + b.num * Int.ofNat a.den)
    (Int.ofNat a.den * Int.ofNat b.den)

/-- Exact rational subtraction. -/
def qSub (a b : ℚ) : ℚ :=
  Rat.divInt (a.num * Int.ofNat b.den - b.num * Int.ofNat a.den)
    (Int.ofNat a.den * Int.ofNat b.den)

/-- Exact rational multiplication. -/
def qMul (a b : ℚ) : ℚ :=
  Rat.divInt (a.num * b.num) (Int.ofNat a.den * Int.ofNat b.den)

/-- Exact rational division (0 when the divisor is 0; never applied to
a zero divisor here). -/
def qDiv (a b : ℚ) : ℚ :=
  Rat.divInt (a.num * Int.ofNat b.den) (Int.ofNat a.den * b.num)

/-- Go `int(x)` conversion from float: truncation toward zero,
modelled on ℚ as truncated integer division of numerator by
denominator. -/
def truncQ (q : ℚ) : ℤ := Int.tdiv q.num (q.den : ℤ)

/-- Zero-pad the decimal representation of `n` to width `w`
(Go `%0wd` for non-negative operands). -/
def padNat (w : ℕ) (n : ℕ) : String :=
  let s := toString n
  if s.length < w then String.mk (List.replicate (w - s.length) '0') ++ s else s

/-- Round-half-to-even on ℚ, the rounding Go's `fmt` applies when
printing a float with a fixed number of decimals. -/
def roundHalfEven (q : ℚ) : ℤ :=
  let f := q.floor
  if qSub q (mkRat f 1) = mkRat 1 2 then
    (if f % 2 = 0 then f else f + 1)
  else (qAdd q (mkRat 1 2)).floor

/-- Go `fmt.Sprintf("%06.3f", s)` for the non-negative seconds field:
three decimals, zero-padded to total width 6. -/
def fmtSeconds63 (s : ℚ) : String :=
  let t : ℕ := (roundHalfEven (qMul s (mkRat 1000 1))).toNat
  padNat 2 (t / 1000) ++ "." ++ padNat 3 (t % 1000)

/-- Embeds Go `formatTime` (file `part_000`, lines 354-360):
`h := int(seconds/3600)`, `m := int(remaining/60)`, remainder printed
as `%02d:%02d:%06.3f`. -/
def formatTime (seconds : ℚ) : String :=
  let h : ℤ := truncQ (qDiv seconds (mkRat 3600 1))
  let remainingSeconds : ℚ := qSub seconds (qMul (mkRat h 1) (mkRat 3600 1))
  let m : ℤ := truncQ (qDiv remainingSeconds (mkRat 60 1))
  let s : ℚ := qSub remainingSeconds (qMul (mkRat m 1) (mkRat 60 1))
  padNat 2 h.toNat ++ ":" ++ padNat 2 m.toNat ++ ":" ++ fmtSeconds63 s

/-- Structural `String.startsWith` (the library one recurses on
string positions, which the kernel cannot evaluate). -/
def strStartsWith (s pre : String) : Bool :=
  pre.toList.isPrefixOf s.toList

/-- Structural `String.endsWith`. -/
def strEndsWith (s suf : String) : Bool :=
  suf.toList.isSuffixOf s.toList

/-- Structural split of a character list at every occurrence of a
separator character (the semantics of `String.splitOn` for a one-character
separator). -/
def splitChar (c : Char) : List Char → List (List Char)
  | [] => [[]]
  | ch :: rest =>
    match splitChar c rest with
    | [] => [[ch]]
    | g :: gs => if ch = c then [] :: g :: gs else (ch :: g) :: gs

/-- Structural `String.intercalate`. -/
def interJoin (sep : String) : List String → String
  | [] => ""
  | [x] => x
  | x :: xs => x ++ sep ++ interJoin sep xs

/-- Go `path.Clean` (only the parts exercised here: segment
normalisation of `.`, `..`, duplicate slashes; trailing-slash removal). -/
def pathClean (p : String) : String :=
  if p = "" then "." else
  let abs := strStartsWith p "/"
  let segs := (splitChar '/' p.toList).map String.mk
  let out := segs.foldl (fun (stack : List String) seg =>
    if seg = "" ∨ seg = "." then stack
    else if seg = ".." then
      match stack with
      | [] => if abs then [] else [".."]
      | top :: rest => if top = ".." then ".." :: stack else rest
    else seg :: stack) []
  let joined := interJoin "/" out.reverse
  if abs then "/" ++ joined
  else if joined = "" then "." else joined

/-- Go `path.Join(a, b)`: drop empty elements, join with `/`, clean. -/
def pathJoin (a b : String) : String :=
  if a = "" ∧ b = "" then ""
  else if a = "" then pathClean b
  else if b = "" then pathClean a
  else pathClean (a ++ "/" ++ b)

/-- Go `path.Split(p)`: split after the final slash; the directory part
keeps its trailing slash. -/
def pathSplit (p : String) : String × String :=
  let cs := p.toList
  let rev := cs.reverse
  let idx := rev.findIdx (fun c => c = '/')
  if idx = rev.length then ("", p)
  else
    let fileLen := idx
    let dirLen := cs.length - fileLen
    (String.mk (cs.take dirLen), String.mk (cs.drop dirLen))

/-- Go `path.Ext(name)`: the suffix beginning at the final dot in the
final slash-separated element, empty if there is none. -/
def pathExt (name : String) : String :=
  let cs := name.toList.reverse
  let idx := cs.findIdx (fun c => c = '.' ∨ c = '/')
  if h : idx < cs.length then
    if cs.get ⟨idx, h⟩ = '.' then String.mk ((cs.take (idx + 1)).reverse) else ""
  else ""

/-- Go `strings.TrimSuffix`. -/
def trimSuffix (s suffix : String) : String :=
  if strEndsWith s suffix then (s.toList.take (s.length - suffix.length)).asString else s

/-! ## Error and event model -/

/-- Go `error` values that flow through this file.  `exitErr` is an
`exec.ExitError` (it records the exit status; `CombinedOutput` does not
attach the captured output to it), `startErr` a process-start failure,
`fsNotExist` / `fsOther` the storage layer's errors, `parseErr` a
`strconv` failure.  `wrapDurationErr e` is the fresh error
`extractVideoFrameAtPercentage` builds with
`fmt.Errorf("...: %v", err)` around the duration-probe error `e`
(file `part_000`, line 301) — a new value embedding the inner error's
message, not the inner error itself.  `extractionFailed` is the error
shape the specification describes — an error value carrying the
captured tool output; the embedded code never constructs it, it exists
so the specification's claim about error contents can be stated. -/
inductive GoErr
  | exitErr (code : ℤ)
  | startErr
  | fsNotExist
  | fsOther
  | parseErr
  | wrapDurationErr (inner : GoErr)
  | extractionFailed (output : String)
  deriving DecidableEq, Repr

/-- Whether an error value is the spec's `ExtractionFailed` carrying
exactly the given captured output. -/
def GoErr.carriesOutput : GoErr → String → Bool
  | .extractionFailed o, out => o = out
  | _, _ => false

/-- The execution context handed to a goroutine: `context.Background()`
(independent of the request) or the request's own context. -/
inductive GoCtx
  | background
  | request
  deriving DecidableEq, Repr

/-- Result of running one external command to completion:
the captured output and the error, `none` meaning exit status 0. -/
structure RunOutcome where
  output : String
  err : Option GoErr
  deriving DecidableEq, Repr

/-- Observable effect events, in program order. -/
inductive Ev
  | fsGet (path : String)
  | existsCheck (path : String)
  | exec (cmd : String) (args : List String)
  | createTemp
  | removeTemp (path : String)
  | makeDir (path : String)
  | put (dir : String) (name : String) (mime : String)
  | putTask (dir : String)
  | goSchedule (ctx : GoCtx) (path : String)
  | formFile
  | drainBody
  deriving DecidableEq, Repr

/-- Whether an event is a subprocess invocation. -/
def Ev.isExec : Ev → Bool
  | .exec _ _ => true
  | _ => false

/-- Whether an event is a storage write (direct or task). -/
def Ev.isPut : Ev → Bool
  | .put _ _ _ => true
  | .putTask _ => true
  | _ => false

/-- Whether an event schedules a goroutine. -/
def Ev.isSchedule : Ev → Bool
  | .goSchedule _ _ => true
  | _ => false

/-- Whether an event is the overwrite-guard existence lookup. -/
def Ev.isExistsCheck : Ev → Bool
  | .existsCheck _ => true
  | _ => false

/-- Whether an event is an ffprobe (duration-probe) invocation. -/
def Ev.isProbe : Ev → Bool
  | .exec c _ => c == "ffprobe"
  | _ => false

/-! ## Codec invocation adapter -/

/-- The ffmpeg argument list of `extractVideoCover`
(file `part_000`, lines 275-285), verbatim. -/
def coverArgs (videoPath outputPath : String) : List String :=
  ["-i", videoPath,
   "-map", "0:v:0",
   "-vframes", "1",
   "-c:v", "libwebp",
   "-q:v", "80",
   "-lossless", "0",
   "-compression_level", "6",
   "-preset", "default",
   "-y",
   outputPath]

/-- The ffmpeg argument list of `extractVideoFrameAtPercentage`
(file `part_000`, lines 309-321), verbatim. -/
def frameArgs (seekTimeStr videoPath outputPath : String) : List String :=
  ["-ss", seekTimeStr,
   "-i", videoPath,
   "-vframes", "1",
   "-vf", "scale=320:-1",
   "-c:v", "libwebp",
   "-q:v", "80",
   "-lossless", "0",
   "-compression_level", "6",
   "-preset", "default",
   "-update", "1",
   "-y",
   outputPath]

/-- The ffprobe argument list of `getVideoDuration`
(file `part_000`, lines 334-338), verbatim. -/
def probeArgs (filePath : String) : List String :=
  ["-v", "error",
   "-show_entries", "format=duration",
   "-of", "default=noprint_wrappers=1:nokey=1",
   filePath]

/-- Return value of one adapter call: the error handed back to the
caller (`none` = success) and what, if anything, was written to the
log. -/
structure AdapterResult where
  res : Option GoErr
  logged : Option String
  deriving DecidableEq, Repr

/-- Embeds Go `extractVideoCover` (lines 273-294): run ffmpeg via
`CombinedOutput`; on failure log the captured output and return the
error value unchanged.  `run` is the oracle for the subprocess result. -/
def extractVideoCover (run : RunOutcome) : AdapterResult :=
  match run.err with
  | some e => ⟨some e, some run.output⟩
  | none => ⟨none, none⟩

/-- Embeds Go `getVideoDuration` (lines 333-351): run ffprobe via
`cmd.Output()` (stdout only), return the raw error on failure, else
parse the trimmed stdout as a float.  `run` is the subprocess oracle;
`parsed` the oracle for `strconv.ParseFloat` on `run.output`. -/
def getVideoDuration (run : RunOutcome) (parsed : Option ℚ) : Except GoErr ℚ :=
  match run.err with
  | some e => .error e
  | none =>
    match parsed with
    | none => .error .parseErr
    | some d => .ok d

/-- Embeds Go `extractVideoFrameAtPercentage` (lines 297-330) up to its
subprocess calls: on a duration-probe failure return the fresh
`fmt.Errorf` wrap of the probe error (line 301); otherwise compute
`seekTime = duration * (percentage / 100)`, format it, run ffmpeg with
`frameArgs`; on ffmpeg failure log the output and return the error
unchanged.  Returns the adapter result plus the exec events issued. -/
def extractVideoFrameAtPercentage (probeRun : RunOutcome) (probeParsed : Option ℚ)
    (frameRun : RunOutcome) (videoPath outputPath : String) (percentage : ℚ) :
    AdapterResult × List Ev :=
  match getVideoDuration probeRun probeParsed with
  | .error e => (⟨some (.wrapDurationErr e), none⟩, [.exec "ffprobe" (probeArgs videoPath)])
  | .ok duration =>
    let seekTime := qMul duration (qDiv percentage (mkRat 100 1))
    let seekTimeStr := formatTime seekTime
    let evs := [.exec "ffprobe" (probeArgs videoPath),
                .exec "ffmpeg" (frameArgs seekTimeStr videoPath outputPath)]
    match frameRun.err with
    | some e => (⟨some e, some frameRun.output⟩, evs)
    | none => (⟨none, none⟩, evs)

/-! ## Artifact validator -/

/-- The model of one local file as `validateWebPFile` observes it:
whether `os.Open` succeeds, whether `Stat` succeeds, the reported size,
and whether `image.Decode` succeeds on its bytes (true exactly when the
bytes form a structurally valid image the registered decoders accept;
arbitrary non-image bytes decode to false). -/
structure LocalFile where
  openOk : Bool
  statOk : Bool
  size : ℤ
  decodesAsImage : Bool
  deriving DecidableEq, Repr

/-- Validation failures of `validateWebPFile`. -/
inductive ValidationErr
  | openFailed
  | statFailed
  | emptyFile
  | decodeFailed
  deriving DecidableEq, Repr

/-- Embeds Go `validateWebPFile` (lines 363-386): open the file, check
`Stat().Size() > 0`, then `image.Decode`; `none` means the artifact is
valid.  The function only reads — it is pure in the file's observed
state. -/
def validateWebPFile (f : LocalFile) : Option ValidationErr :=
  if !f.openOk then some .openFailed
  else if !f.statOk then some .statFailed
  else if f.size ≤ 0 then some .emptyFile
  else if !f.decodesAsImage then some .decodeFailed
  else none

/-! ## Derivation orchestrator -/

/-- A storage object as returned by `fs.Get`; `getPath` is the
driver-local absolute path `Obj.GetPath()` reports. -/
structure Obj where
  getPath : String
  deriving DecidableEq, Repr

/-- Embeds Go `checkFileExists` (lines 39-51): `fs.Get`; an
`os.ErrNotExist` error means "does not exist, no error", any other
error propagates, otherwise existence is `obj != nil`.  `getRes` is the
oracle for the `fs.Get` call. -/
def checkFileExists (getRes : Except GoErr (Option Obj)) : Except GoErr Bool :=
  match getRes with
  | .error .fsNotExist => .ok false
  | .error e => .error e
  | .ok obj => .ok obj.isSome

/-- Oracle environment for one run of `generateVideoThumbnail`: the
result of each effectful collaborator call, in the order the code can
make them. -/
structure ThumbEnv where
  getSource : Except GoErr Obj
  getTarget : Except GoErr (Option Obj)
  createTempRes : Except GoErr String
  coverRun : RunOutcome
  probeRun : RunOutcome
  probeParsed : Option ℚ
  frameRun : RunOutcome
  tempFile : LocalFile
  makeDirRes : Option GoErr
  openTempOk : Bool
  statSize : Option ℤ
  putRes : Option GoErr
  deriving Repr

/-- Terminal states of one orchestrator run. -/
inductive ThumbOutcome
  | errGetSource
  | errEmptyPath
  | errExistsCheck
  | skippedExists
  | errCreateTemp
  | errExtraction
  | errValidate
  | errMakeDir
  | errOpenTemp
  | errPut
  | published
  deriving DecidableEq, Repr

/-- The derived thumbnail directory (file `part_000`, line 177):
the hidden `.thumbnails` sibling collection under the source parent. -/
def targetThumbDir (filePath : String) : String :=
  pathJoin (pathSplit filePath).1 ".thumbnails"

/-- The derived thumbnail file name (lines 178-179): source base name
with the extension stripped, plus `.webp`. -/
def targetThumbName (filePath : String) : String :=
  trimSuffix (pathSplit filePath).2 (pathExt (pathSplit filePath).2) ++ ".webp"

/-- The derived thumbnail path (line 180). -/
def targetThumbPath (filePath : String) : String :=
  pathJoin (targetThumbDir filePath) (targetThumbName filePath)

/-- Validation and publishing half of `generateVideoThumbnail`
(lines 225-269): validate the staged artifact, ensure the target
directory, open and stat the temp file, `fs.PutDirectly` the upload
stream; the deferred `os.Remove` of the staged file closes every
path.  `evs` is the trace accumulated so far. -/
def thumbPublishPhase (env : ThumbEnv) (tempFilePath thumbDir thumbName : String)
    (evs : List Ev) : ThumbOutcome × List Ev :=
  match validateWebPFile env.tempFile with
  | some _ => (.errValidate, evs ++ [.removeTemp tempFilePath])
  | none =>
    let ev5 := evs ++ [.makeDir thumbDir]
    match env.makeDirRes with
    | some _ => (.errMakeDir, ev5 ++ [.removeTemp tempFilePath])
    | none =>
      if !env.openTempOk then (.errOpenTemp, ev5 ++ [.removeTemp tempFilePath])
      else
        let ev6 := ev5 ++ [.put thumbDir thumbName "image/webp"]
        match env.putRes with
        | some _ => (.errPut, ev6 ++ [.removeTemp tempFilePath])
        | none => (.published, ev6 ++ [.removeTemp tempFilePath])

/-- The percentage literal `3.0` the orchestrator passes to
`extractVideoFrameAtPercentage` (line 219). -/
def percent3 : ℚ := mkRat 3 1

/-- The part of `generateVideoThumbnail` guarded by the deferred
`os.Remove` (lines 206-269): attempt 1 (cover extraction), on failure
attempt 2 (frame at 3% of duration), then validation and publishing.
Every exit path ends by removing the staged temp file. -/
def thumbAfterStaging (env : ThumbEnv) (videoAbsPath tempFilePath thumbDir thumbName : String) :
    ThumbOutcome × List Ev :=
  let ev3 : List Ev := [.exec "ffmpeg" (coverArgs videoAbsPath tempFilePath)]
  match (extractVideoCover env.coverRun).res with
  | none => thumbPublishPhase env tempFilePath thumbDir thumbName ev3
  | some _ =>
    let fallback := extractVideoFrameAtPercentage env.probeRun
      env.probeParsed env.frameRun videoAbsPath tempFilePath percent3
    match fallback.1.res with
    | some _ => (.errExtraction, ev3 ++ fallback.2 ++ [.removeTemp tempFilePath])
    | none => thumbPublishPhase env tempFilePath thumbDir thumbName (ev3 ++ fallback.2)

/-- Embeds Go `generateVideoThumbnail` (lines 160-270): resolve the
source object, compute the target `.thumbnails` path, idempotency
check, stage a temp file (removed by `defer` on every later path), run
the cover/percentage extraction fallback, validate, create the target
directory, and publish via `fs.PutDirectly`.  Returns the terminal
state and the effect-event trace. -/
def generateVideoThumbnail (env : ThumbEnv) (filePath : String) :
    ThumbOutcome × List Ev :=
  let ev0 : List Ev := [.fsGet filePath]
  match env.getSource with
  | .error _ => (.errGetSource, ev0)
  | .ok fileObj =>
    if fileObj.getPath = "" then (.errEmptyPath, ev0)
    else
      let ev1 := ev0 ++ [.fsGet (targetThumbPath filePath)]
      match checkFileExists env.getTarget with
      | .error _ => (.errExistsCheck, ev1)
      | .ok true => (.skippedExists, ev1)
      | .ok false =>
        let ev2 := ev1 ++ [.createTemp]
        match env.createTempRes with
        | .error _ => (.errCreateTemp, ev2)
        | .ok tempFilePath =>
          let tail := thumbAfterStaging env fileObj.getPath tempFilePath
            (targetThumbDir filePath) (targetThumbName filePath)
          (tail.1, ev2 ++ tail.2)

/-! ## Ingress adapter: FsStream and FsForm -/

/-- HTTP responses the handlers produce. -/
inductive Resp
  | success
  | successTask
  | errResp (code : ℤ)
  | errStrResp (code : ℤ) (msg : String)
  deriving DecidableEq, Repr

/-- The `Overwrite` header parse shared by both handlers (lines 70 and
411): overwrite is enabled unless the header is exactly `"false"`. -/
def overwriteFlag (h : String) : Bool := h != "false"

/-- Oracle environment for one `FsStream` request. -/
structure StreamEnv where
  unescapeRes : Except GoErr String
  asTaskHeader : String
  overwriteHeader : String
  joinRes : Except GoErr String
  getDest : Option Obj
  contentLengthHeader : String
  sizeParse : Except GoErr ℤ
  contentTypeHeader : String
  mimeFromName : String
  putTaskRes : Except GoErr Bool
  putRes : Option GoErr
  deriving Repr

/-- The MIME type `FsStream` attaches (lines 111-114): the request
`Content-Type` header, or, when that is empty, the type inferred from
the file name. -/
def streamMime (env : StreamEnv) : String :=
  if env.contentTypeHeader.length = 0 then env.mimeFromName else env.contentTypeHeader

/-- Embeds Go `FsStream` (lines 53-157): unescape the `File-Path`
header, read the `As-Task` and `Overwrite` flags, join against the
user root, optional existence check, parse `Content-Length`, choose
the MIME type, write directly or enqueue as a task, and for
`video/`-typed content schedule `generateVideoThumbnail` on
`context.Background()`.  The deferred body drain-and-close runs last
on every path. -/
def FsStream (env : StreamEnv) : Resp × List Ev :=
  let body : Resp × List Ev :=
    match env.unescapeRes with
    | .error _ => (.errResp 400, [])
    | .ok _ =>
      let asTask := env.asTaskHeader == "true"
      let overwrite := overwriteFlag env.overwriteHeader
      match env.joinRes with
      | .error _ => (.errResp 403, [])
      | .ok path =>
        let ev1 : List Ev := if !overwrite then [.existsCheck path] else []
        if !overwrite ∧ env.getDest.isSome then (.errStrResp 403 "file exists", ev1)
        else
          let dirName := pathSplit path
          let sizeRes := if env.contentLengthHeader = "" then Except.ok 0
                         else env.sizeParse
          match sizeRes with
          | .error _ => (.errResp 400, ev1)
          | .ok _ =>
            let mimetype := streamMime env
            let sched : List Ev :=
              if strStartsWith mimetype "video/" then [.goSchedule .background path] else []
            if asTask then
              match env.putTaskRes with
              | .error _ => (.errResp 500, ev1 ++ [.putTask dirName.1])
              | .ok tNonNil =>
                ((if tNonNil then .successTask else .success),
                 ev1 ++ [.putTask dirName.1] ++ sched)
            else
              match env.putRes with
              | some _ => (.errResp 500, ev1 ++ [.put dirName.1 dirName.2 mimetype])
              | none => (.success, ev1 ++ [.put dirName.1 dirName.2 mimetype] ++ sched)
  (body.1, body.2 ++ [.drainBody])

/-- Oracle environment for one `FsForm` request. -/
structure FormEnv where
  unescapeRes : Except GoErr String
  asTaskHeader : String
  overwriteHeader : String
  joinRes : Except GoErr String
  getDest : Option Obj
  storageRes : Except GoErr Bool
  formFileRes : Except GoErr ℤ
  openFileOk : Bool
  formContentType : String
  mimeFromName : String
  putTaskRes : Except GoErr Bool
  putRes : Option GoErr
  deriving Repr

/-- The MIME type `FsForm` attaches (lines 455-458): the form part
`Content-Type` header, or, when that is empty, the type inferred from
the file name. -/
def formMime (env : FormEnv) : String :=
  if env.formContentType.length = 0 then env.mimeFromName else env.formContentType

/-- Embeds Go `FsForm` (lines 397-490): same path/flag handling as
`FsStream`, then storage lookup (rejecting `NoUpload` storages),
multipart form-file extraction (which parses the request body), and
the direct or task write.  No thumbnail scheduling exists on any path.
The deferred body drain-and-close runs last on every path. -/
def FsForm (env : FormEnv) : Resp × List Ev :=
  let body : Resp × List Ev :=
    match env.unescapeRes with
    | .error _ => (.errResp 400, [])
    | .ok _ =>
      let asTask := env.asTaskHeader == "true"
      let overwrite := overwriteFlag env.overwriteHeader
      match env.joinRes with
      | .error _ => (.errResp 403, [])
      | .ok path =>
        let ev1 : List Ev := if !overwrite then [.existsCheck path] else []
        if !overwrite ∧ env.getDest.isSome then (.errStrResp 403 "file exists", ev1)
        else
          match env.storageRes with
          | .error _ => (.errResp 400, ev1)
          | .ok noUpload =>
            if noUpload then
              (.errStrResp 405 "Current storage doesn't support upload", ev1)
            else
              let ev2 := ev1 ++ [.formFile]
              match env.formFileRes with
              | .error _ => (.errResp 500, ev2)
              | .ok _ =>
                if !env.openFileOk then (.errResp 500, ev2)
                else
                  let dirName := pathSplit path
                  let mimetype := formMime env
                  if asTask then
                    match env.putTaskRes with
                    | .error _ => (.errResp 500, ev2 ++ [.putTask dirName.1])
                    | .ok tNonNil =>
                      ((if tNonNil then .successTask else .success),
                       ev2 ++ [.putTask dirName.1])
                  else
                    match env.putRes with
                    | some _ => (.errResp 500, ev2 ++ [.put dirName.1 dirName.2 mimetype])
                    | none => (.success, ev2 ++ [.put dirName.1 dirName.2 mimetype])
  (body.1, body.2 ++ [.drainBody])

/-! ## Concrete example inputs used by the closed theorems below -/

/-- The output-encoding arguments both extraction attempts share:
WebP encoder, quality 80, lossy, compression level 6. -/
def encodingArgs : List String :=
  ["-c:v", "libwebp", "-q:v", "80", "-lossless", "0", "-compression_level", "6"]

/-- A resolved source video object. -/
def vidObj : Obj := ⟨"/mnt/data/video.mp4"⟩

/-- An orchestrator environment for a full run: no thumbnail yet,
cover extraction fails, the 3%-offset fallback succeeds on a
100-second video, and every later step succeeds. -/
def thumbEnvRun : ThumbEnv where
  getSource := .ok vidObj
  getTarget := .error .fsNotExist
  createTempRes := .ok "/tmp/video_thumb_1.webp"
  coverRun := ⟨"cover diagnostics", some (.exitErr 1)⟩
  probeRun := ⟨"100.000000", none⟩
  probeParsed := some (mkRat 100 1)
  frameRun := ⟨"", none⟩
  tempFile := ⟨true, true, 2048, true⟩
  makeDirRes := none
  openTempOk := true
  statSize := some 2048
  putRes := none

/-- Same as `thumbEnvRun` but the target thumbnail already exists. -/
def thumbEnvSkip : ThumbEnv :=
  { thumbEnvRun with getTarget := .ok (some ⟨"/mnt/data/.thumbnails/video.webp"⟩) }

/-- Same as `thumbEnvRun` but the fallback extraction fails too. -/
def thumbEnvBothFail : ThumbEnv :=
  { thumbEnvRun with frameRun := ⟨"frame diagnostics", some (.exitErr 1)⟩ }

/-- Same as `thumbEnvRun` but the staged artifact is empty, so
validation fails. -/
def thumbEnvInvalid : ThumbEnv :=
  { thumbEnvRun with tempFile := ⟨true, true, 0, true⟩ }

/-- A raw-stream upload request for a video, destined to succeed as a
direct write. -/
def streamEnvVideo : StreamEnv where
  unescapeRes := .ok "/movie.mp4"
  asTaskHeader := ""
  overwriteHeader := ""
  joinRes := .ok "/user/movie.mp4"
  getDest := none
  contentLengthHeader := "1024"
  sizeParse := .ok 1024
  contentTypeHeader := "video/mp4"
  mimeFromName := ""
  putTaskRes := .ok true
  putRes := none

/-- A raw-stream request with overwrite disabled against an existing
destination object. -/
def streamEnvExists : StreamEnv :=
  { streamEnvVideo with overwriteHeader := "false", getDest := some ⟨"/abs/movie.mp4"⟩ }

/-- A multipart-form upload request for a video, destined to succeed
as a direct write. -/
def formEnvVideo : FormEnv where
  unescapeRes := .ok "/movie.mp4"
  asTaskHeader := ""
  overwriteHeader := ""
  joinRes := .ok "/user/movie.mp4"
  getDest := none
  storageRes := .ok false
  formFileRes := .ok 1024
  openFileOk := true
  formContentType := "video/mp4"
  mimeFromName := ""
  putTaskRes := .ok true
  putRes := none

/-- A multipart-form request with overwrite disabled against an
existing destination object. -/
def formEnvExists : FormEnv :=
  { formEnvVideo with overwriteHeader := "false", getDest := some ⟨"/abs/movie.mp4"⟩ }

/-! ## Claim C6: the artifact validator -/

/-- Claim C6: the artifact validator, on a readable file, fails on a
zero-size file, fails when the bytes do not decode as a structurally
valid image, and accepts a well-formed image; it is a pure function of
the file as opened for read. -/
theorem claim6_validator (f : LocalFile)
    (hopen : f.openOk = true) (hstat : f.statOk = true) :
    (f.size = 0 → validateWebPFile f = some .emptyFile) ∧
    (0 < f.size → f.decodesAsImage = false → validateWebPFile f = some .decodeFailed) ∧
    (0 < f.size → f.decodesAsImage = true → validateWebPFile f = none) := by
  refine ⟨fun h0 => ?_, fun hpos hdec => ?_, fun hpos hdec => ?_⟩
  · simp [validateWebPFile, hopen, hstat, h0]
  · have h2 : ¬ f.size ≤ 0 := by omega
    simp [validateWebPFile, hopen, hstat, hdec, h2]
  · have h2 : ¬ f.size ≤ 0 := by omega
    simp [validateWebPFile, hopen, hstat, hdec, h2]

/-- Claim C6 witness: the validator evaluated on a zero-byte file, a
non-image byte file, and a well-formed image. -/
theorem claim6_validator_witness :
    validateWebPFile ⟨true, true, 0, true⟩ = some .emptyFile ∧
    validateWebPFile ⟨true, true, 77, false⟩ = some .decodeFailed ∧
    validateWebPFile ⟨true, true, 2048, true⟩ = none :=
  ⟨(claim6_validator ⟨true, true, 0, true⟩ rfl rfl).1 rfl,
   (claim6_validator ⟨true, true, 77, false⟩ rfl rfl).2.1 (by decide) rfl,
   (claim6_validator ⟨true, true, 2048, true⟩ rfl rfl).2.2 (by decide) rfl⟩

/-! ## Claim C7: seek-time computation and formatting -/

/-- Claim C7 counterexample: `formatTime` on 3725.5 seconds yields
`"01:02:05.500"`, not the spec claim `"01:02:05.000"`; and under the
alternative reading — a 0% offset of a 3725.5-second duration — the
formatted seek time is `"00:00:00.000"`, which differs as well. -/
theorem claim7_counterexample :
    formatTime (mkRat 7451 2) = "01:02:05.500" ∧
    formatTime (mkRat 7451 2) ≠ "01:02:05.000" ∧
    formatTime (qMul (mkRat 7451 2) (qDiv (mkRat 0 1) (mkRat 100 1))) = "00:00:00.000" :=
  ⟨by decide, by decide, by decide⟩

/-- Claim C7 amended: `formatTime 3725.5 = "01:02:05.500"`; the seek
time at a 3% offset of a 100-second duration is exactly 3 seconds and
formats as `"00:00:03.000"` (the seek-time expression is the one
`extractVideoFrameAtPercentage` computes: duration times
percentage/100). -/
theorem claim7_amended :
    formatTime (mkRat 7451 2) = "01:02:05.500" ∧
    qMul (mkRat 100 1) (qDiv (mkRat 3 1) (mkRat 100 1)) = mkRat 3 1 ∧
    formatTime (qMul (mkRat 100 1) (qDiv (mkRat 3 1) (mkRat 100 1))) = "00:00:03.000" :=
  ⟨by decide, by decide, by decide⟩

/-! ## Claim C9: adapter error mapping -/

/-- Claim C9 counterexample, one concrete failing invocation per
adapter path.  Cover extraction exiting 1 with combined output
`"diag"` returns the bare `exec.ExitError` — the output is logged, not
carried in the error.  A duration-probe failure with stdout capture
`"probe diag"` makes `extractVideoFrameAtPercentage` return the fresh
`fmt.Errorf` wrap of the probe error — again without the captured
output.  A fallback-frame failure with combined output `"frame diag"`
returns the bare exit error, output logged only.  None of the three
returned error values is an `ExtractionFailed` carrying the captured
output. -/
theorem claim9_counterexample :
    (extractVideoCover ⟨"diag", some (.exitErr 1)⟩).res = some (.exitErr 1) ∧
    (extractVideoCover ⟨"diag", some (.exitErr 1)⟩).logged = some "diag" ∧
    GoErr.carriesOutput (.exitErr 1) "diag" = false ∧
    (extractVideoFrameAtPercentage ⟨"probe diag", some (.exitErr 1)⟩ none
      ⟨"", none⟩ "/v.mp4" "/t.webp" percent3).1 =
      ⟨some (.wrapDurationErr (.exitErr 1)), none⟩ ∧
    GoErr.carriesOutput (.wrapDurationErr (.exitErr 1)) "probe diag" = false ∧
    (extractVideoFrameAtPercentage ⟨"100", none⟩ (some (mkRat 100 1))
      ⟨"frame diag", some (.exitErr 2)⟩ "/v.mp4" "/t.webp" percent3).1 =
      ⟨some (.exitErr 2), some "frame diag"⟩ ∧
    GoErr.carriesOutput (.exitErr 2) "frame diag" = false :=
  ⟨rfl, rfl, rfl, by decide, rfl, by decide, rfl⟩

/-- Claim C9 amended: no adapter failure produces an
`ExtractionFailed` error carrying the captured output.  Instead:
`extractVideoCover` returns the ffmpeg error value unchanged and logs
the captured combined output; `getVideoDuration` (which captures
stdout only) returns its raw error without logging; a duration-probe
failure makes `extractVideoFrameAtPercentage` return a fresh error
wrapping the probe error's message (Go line 301, `fmt.Errorf`), still
without the captured output; and a fallback-frame ffmpeg failure is
returned unchanged with its combined output logged. -/
theorem claim9_amended :
    (∀ run : RunOutcome, ∀ e : GoErr, run.err = some e →
      (extractVideoCover run).res = some e ∧
      (extractVideoCover run).logged = some run.output) ∧
    (∀ run : RunOutcome, ∀ parsed : Option ℚ, ∀ e : GoErr, run.err = some e →
      getVideoDuration run parsed = .error e) ∧
    (∀ pr : RunOutcome, ∀ pp : Option ℚ, ∀ fr : RunOutcome, ∀ v o : String, ∀ p : ℚ,
      ∀ e : GoErr, getVideoDuration pr pp = .error e →
      (extractVideoFrameAtPercentage pr pp fr v o p).1 =
        ⟨some (.wrapDurationErr e), none⟩) ∧
    (∀ pr : RunOutcome, ∀ pp : Option ℚ, ∀ fr : RunOutcome, ∀ v o : String, ∀ p : ℚ,
      ∀ d : ℚ, ∀ e : GoErr, getVideoDuration pr pp = .ok d → fr.err = some e →
      (extractVideoFrameAtPercentage pr pp fr v o p).1.res = some e ∧
      (extractVideoFrameAtPercentage pr pp fr v o p).1.logged = some fr.output) := by
  refine ⟨?_, ?_, ?_, ?_⟩
  · intro run e he
    constructor <;> simp [extractVideoCover, he]
  · intro run parsed e he
    simp [getVideoDuration, he]
  · intro pr pp fr v o p e hd
    simp [extractVideoFrameAtPercentage, hd]
  · intro pr pp fr v o p d e hd he
    constructor <;> simp [extractVideoFrameAtPercentage, hd, he]

/-! ## Shared lemmas about the orchestrator's phases -/

/-- `extractVideoCover` hands back exactly the subprocess error. -/
theorem extractVideoCover_res (r : RunOutcome) : (extractVideoCover r).res = r.err := by
  rcases r with ⟨o, e⟩
  cases e <;> rfl

/-- Every exit path of the publish phase ends with the deferred
removal of the staged file. -/
theorem thumbPublishPhase_remove (env : ThumbEnv) (tmp d n : String) (evs : List Ev) :
    Ev.removeTemp tmp ∈ (thumbPublishPhase env tmp d n evs).2 := by
  cases h1 : validateWebPFile env.tempFile with
  | some ve => simp [thumbPublishPhase, h1]
  | none =>
    cases h2 : env.makeDirRes with
    | some me => simp [thumbPublishPhase, h1, h2]
    | none =>
      cases h3 : env.openTempOk with
      | false => simp [thumbPublishPhase, h1, h2, h3]
      | true =>
        cases h4 : env.putRes with
        | some pe => simp [thumbPublishPhase, h1, h2, h3, h4]
        | none => simp [thumbPublishPhase, h1, h2, h3, h4]

/-- Every exit path after staging ends with the deferred removal of
the staged file. -/
theorem thumbAfterStaging_remove (env : ThumbEnv) (v tmp d n : String) :
    Ev.removeTemp tmp ∈ (thumbAfterStaging env v tmp d n).2 := by
  cases h1 : (extractVideoCover env.coverRun).res with
  | none =>
    simp only [thumbAfterStaging, h1]
    exact thumbPublishPhase_remove ..
  | some ce =>
    cases h2 : (extractVideoFrameAtPercentage env.probeRun env.probeParsed
        env.frameRun v tmp percent3).1.res with
    | some fe => simp [thumbAfterStaging, h1, h2]
    | none =>
      simp only [thumbAfterStaging, h1, h2]
      exact thumbPublishPhase_remove ..

/-- The publish phase only ever appends the directory creation, the
publish itself and the deferred removal to the accumulated trace. -/
theorem thumbPublishPhase_mem (env : ThumbEnv) (tmp d n : String) (evs : List Ev) :
    ∀ e ∈ (thumbPublishPhase env tmp d n evs).2,
      e ∈ evs ∨ e = .makeDir d ∨ e = .put d n "image/webp" ∨ e = .removeTemp tmp := by
  intro e he
  cases h1 : validateWebPFile env.tempFile with
  | some ve => simp [thumbPublishPhase, h1, List.mem_append] at he; tauto
  | none =>
    cases h2 : env.makeDirRes with
    | some me => simp [thumbPublishPhase, h1, h2, List.mem_append] at he; tauto
    | none =>
      cases h3 : env.openTempOk with
      | false => simp [thumbPublishPhase, h1, h2, h3, List.mem_append] at he; tauto
      | true =>
        cases h4 : env.putRes with
        | some pe => simp [thumbPublishPhase, h1, h2, h3, h4, List.mem_append] at he; tauto
        | none => simp [thumbPublishPhase, h1, h2, h3, h4, List.mem_append] at he; tauto

/-- The fallback attempt's own trace holds only subprocess events. -/
theorem frameEvents_execOnly (pr : RunOutcome) (pp : Option ℚ) (fr : RunOutcome)
    (v o : String) (p : ℚ) :
    ((extractVideoFrameAtPercentage pr pp fr v o p).2.all fun e => e.isExec) = true := by
  cases hd : getVideoDuration pr pp with
  | error e => simp [extractVideoFrameAtPercentage, hd, Ev.isExec]
  | ok d =>
    cases hf : fr.err with
    | some fe => simp [extractVideoFrameAtPercentage, hd, hf, Ev.isExec]
    | none => simp [extractVideoFrameAtPercentage, hd, hf, Ev.isExec]

/-- When validation fails, the publish phase adds nothing to the trace
but the deferred removal. -/
theorem thumbPublishPhase_failTrace (env : ThumbEnv) (tmp d n : String) (evs : List Ev)
    (hv : (validateWebPFile env.tempFile).isSome) :
    thumbPublishPhase env tmp d n evs = (.errValidate, evs ++ [.removeTemp tmp]) := by
  obtain ⟨e, he⟩ := Option.isSome_iff_exists.mp hv
  simp [thumbPublishPhase, he]

/-- A trace of subprocess events only contains no storage write. -/
theorem execOnly_noput (l : List Ev) (h : (l.all fun e => e.isExec) = true) :
    (l.all fun e => !e.isPut) = true := by
  rw [List.all_eq_true] at h ⊢
  intro e he
  have h2 := h e he
  cases e <;> simp_all [Ev.isExec, Ev.isPut]

/-- When validation fails, no exit path of the post-staging phase puts
anything into storage. -/
theorem thumbAfterStaging_noput (env : ThumbEnv) (v tmp d n : String)
    (hv : (validateWebPFile env.tempFile).isSome) :
    ((thumbAfterStaging env v tmp d n).2.all fun e => !e.isPut) = true := by
  have hf2 := execOnly_noput _ (frameEvents_execOnly env.probeRun env.probeParsed
    env.frameRun v tmp percent3)
  rw [List.all_eq_true] at hf2
  rw [List.all_eq_true]
  intro x hx
  cases h1 : (extractVideoCover env.coverRun).res with
  | none =>
    simp only [thumbAfterStaging, h1] at hx
    rw [thumbPublishPhase_failTrace _ _ _ _ _ hv] at hx
    simp only [List.mem_append, List.mem_singleton, List.mem_cons,
      List.not_mem_nil, or_false] at hx
    rcases hx with rfl | rfl <;> rfl
  | some ce =>
    cases h2 : (extractVideoFrameAtPercentage env.probeRun env.probeParsed
        env.frameRun v tmp percent3).1.res with
    | some fe =>
      simp only [thumbAfterStaging, h1, h2] at hx
      simp only [List.cons_append, List.nil_append, List.mem_cons,
        List.mem_append, List.mem_singleton] at hx
      rcases hx with rfl | hx | rfl | h0
      · rfl
      · exact hf2 x hx
      · rfl
      · simp at h0
    | none =>
      simp only [thumbAfterStaging, h1, h2] at hx
      rw [thumbPublishPhase_failTrace _ _ _ _ _ hv] at hx
      simp only [List.cons_append, List.nil_append, List.mem_cons,
        List.mem_append, List.mem_singleton] at hx
      rcases hx with rfl | hx | rfl | h0
      · rfl
      · exact hf2 x hx
      · rfl
      · simp at h0

/-- No storage write appears anywhere in an orchestrator trace unless
the staged artifact passed validation. -/
theorem thumb_noput (env : ThumbEnv) (filePath : String)
    (hv : (validateWebPFile env.tempFile).isSome) :
    ((generateVideoThumbnail env filePath).2.all fun e => !e.isPut) = true := by
  cases hs : env.getSource with
  | error ge => simp [generateVideoThumbnail, hs, Ev.isPut]
  | ok fileObj =>
    by_cases hp : fileObj.getPath = ""
    · simp [generateVideoThumbnail, hs, hp, Ev.isPut]
    · cases hx : checkFileExists env.getTarget with
      | error ce => simp [generateVideoThumbnail, hs, hp, hx, Ev.isPut]
      | ok b =>
        cases b with
        | true => simp [generateVideoThumbnail, hs, hp, hx, Ev.isPut]
        | false =>
          cases ht : env.createTempRes with
          | error te => simp [generateVideoThumbnail, hs, hp, hx, ht, Ev.isPut]
          | ok tmp =>
            have h2 := thumbAfterStaging_noput env fileObj.getPath tmp
              (targetThumbDir filePath) (targetThumbName filePath) hv
            rw [List.all_eq_true] at h2
            have key : (generateVideoThumbnail env filePath).2 =
                [Ev.fsGet filePath, Ev.fsGet (targetThumbPath filePath), Ev.createTemp] ++
                (thumbAfterStaging env fileObj.getPath tmp
                  (targetThumbDir filePath) (targetThumbName filePath)).2 := by
              simp [generateVideoThumbnail, hs, hp, hx, ht]
            rw [key, List.all_eq_true]
            intro x hmem
            rw [List.mem_append] at hmem
            rcases hmem with hmem | hmem
            · simp only [List.mem_cons, List.not_mem_nil, or_false] at hmem
              rcases hmem with rfl | rfl | rfl <;> rfl
            · exact h2 x hmem

/-- The publish phase keeps every event of the accumulated prefix. -/
theorem thumbPublishPhase_keepsEarlier (env : ThumbEnv) (tmp d n : String) (evs : List Ev) :
    ∀ e ∈ evs, e ∈ (thumbPublishPhase env tmp d n evs).2 := by
  intro e he
  cases h1 : validateWebPFile env.tempFile with
  | some ve => simp [thumbPublishPhase, h1, List.mem_append, he]
  | none =>
    cases h2 : env.makeDirRes with
    | some me => simp [thumbPublishPhase, h1, h2, List.mem_append, he]
    | none =>
      cases h3 : env.openTempOk with
      | false => simp [thumbPublishPhase, h1, h2, h3, List.mem_append, he]
      | true =>
        cases h4 : env.putRes with
        | some pe => simp [thumbPublishPhase, h1, h2, h3, h4, List.mem_append, he]
        | none => simp [thumbPublishPhase, h1, h2, h3, h4, List.mem_append, he]

/-- Attempt 1, the cover extraction, appears in every post-staging
trace. -/
theorem thumbAfterStaging_coverMem (env : ThumbEnv) (v tmp d n : String) :
    Ev.exec "ffmpeg" (coverArgs v tmp) ∈ (thumbAfterStaging env v tmp d n).2 := by
  cases h1 : (extractVideoCover env.coverRun).res with
  | none =>
    simp only [thumbAfterStaging, h1]
    exact thumbPublishPhase_keepsEarlier _ _ _ _ _ _ (by simp)
  | some ce =>
    cases h2 : (extractVideoFrameAtPercentage env.probeRun env.probeParsed
        env.frameRun v tmp percent3).1.res with
    | some fe => simp [thumbAfterStaging, h1, h2]
    | none =>
      simp only [thumbAfterStaging, h1, h2]
      exact thumbPublishPhase_keepsEarlier _ _ _ _ _ _ (by simp)

/-- Once attempt 1 has failed, every event of the fallback attempt's
trace appears in the post-staging trace. -/
theorem thumbAfterStaging_fallbackMem (env : ThumbEnv) (v tmp d n : String) (ce : GoErr)
    (hc : env.coverRun.err = some ce) (x : Ev)
    (hx : x ∈ (extractVideoFrameAtPercentage env.probeRun env.probeParsed
      env.frameRun v tmp percent3).2) :
    x ∈ (thumbAfterStaging env v tmp d n).2 := by
  have h1 : (extractVideoCover env.coverRun).res = some ce := by
    rw [extractVideoCover_res, hc]
  cases h2 : (extractVideoFrameAtPercentage env.probeRun env.probeParsed
      env.frameRun v tmp percent3).1.res with
  | some fe => simp [thumbAfterStaging, h1, h2, List.mem_cons, List.mem_append, hx]
  | none =>
    simp only [thumbAfterStaging, h1, h2]
    exact thumbPublishPhase_keepsEarlier _ _ _ _ _ _ (by simp [hx])

/-- The fallback attempt always begins by probing the duration. -/
theorem frameEvents_probeMem (pr : RunOutcome) (pp : Option ℚ) (fr : RunOutcome)
    (v o : String) (p : ℚ) :
    Ev.exec "ffprobe" (probeArgs v) ∈ (extractVideoFrameAtPercentage pr pp fr v o p).2 := by
  cases hd : getVideoDuration pr pp with
  | error e => simp [extractVideoFrameAtPercentage, hd]
  | ok d => cases hf : fr.err <;> simp [extractVideoFrameAtPercentage, hd, hf]

/-- When the duration probe succeeds, the fallback attempt extracts
one frame at the seek time `duration * (percentage / 100)`, formatted
by `formatTime`. -/
theorem frameEvents_frameMem (pr : RunOutcome) (pp : Option ℚ) (fr : RunOutcome)
    (v o : String) (p d : ℚ) (hd : getVideoDuration pr pp = .ok d) :
    Ev.exec "ffmpeg" (frameArgs (formatTime (qMul d (qDiv p (mkRat 100 1)))) v o)
      ∈ (extractVideoFrameAtPercentage pr pp fr v o p).2 := by
  cases hf : fr.err <;> simp [extractVideoFrameAtPercentage, hd, hf]

/-- The run up to staging prepends exactly the two lookups and the
temp-file creation before the post-staging trace. -/
theorem generateVideoThumbnail_stagedTrace (env : ThumbEnv) (filePath : String)
    (obj : Obj) (tmp : String) (hs : env.getSource = .ok obj) (hp : obj.getPath ≠ "")
    (hx : checkFileExists env.getTarget = .ok false) (ht : env.createTempRes = .ok tmp) :
    generateVideoThumbnail env filePath =
      ((thumbAfterStaging env obj.getPath tmp
          (targetThumbDir filePath) (targetThumbName filePath)).1,
        [Ev.fsGet filePath, Ev.fsGet (targetThumbPath filePath), Ev.createTemp] ++
        (thumbAfterStaging env obj.getPath tmp
          (targetThumbDir filePath) (targetThumbName filePath)).2) := by
  simp [generateVideoThumbnail, hs, hp, hx, ht]

/-! ## Claim C2: the two-attempt extraction fallback chain -/

/-- Claim C2: in every derivation run that reaches extraction, attempt
1 (the embedded-cover extraction) is always invoked; no duration probe
runs unless attempt 1 failed; when attempt 1 fails the chain probes the
duration and, if the probe parses, extracts one frame at the seek time
`duration * (3 / 100)` formatted by `formatTime`, scaled to a fixed
320-pixel width; both attempts share the same output encoding
(libwebp, quality 80, lossy, compression level 6); and when attempt 2
also fails the orchestrator terminates in `errExtraction` with no
storage write at all. -/
theorem claim2_fallback_chain (env : ThumbEnv) (filePath : String) (obj : Obj)
    (tmp : String) (hs : env.getSource = .ok obj) (hp : obj.getPath ≠ "")
    (hx : checkFileExists env.getTarget = .ok false)
    (ht : env.createTempRes = .ok tmp) :
    (Ev.exec "ffmpeg" (coverArgs obj.getPath tmp) ∈ (generateVideoThumbnail env filePath).2) ∧
    (env.coverRun.err = none →
      ((generateVideoThumbnail env filePath).2.all fun e => !e.isProbe) = true) ∧
    (∀ ce, env.coverRun.err = some ce →
      Ev.exec "ffprobe" (probeArgs obj.getPath) ∈ (generateVideoThumbnail env filePath).2) ∧
    (∀ ce d, env.coverRun.err = some ce →
      getVideoDuration env.probeRun env.probeParsed = .ok d →
      Ev.exec "ffmpeg" (frameArgs (formatTime (qMul d (qDiv percent3 (mkRat 100 1))))
        obj.getPath tmp) ∈ (generateVideoThumbnail env filePath).2) ∧
    (encodingArgs <:+: coverArgs obj.getPath tmp) ∧
    (∀ s, encodingArgs <:+: frameArgs s obj.getPath tmp) ∧
    (∀ s, "scale=320:-1" ∈ frameArgs s obj.getPath tmp) ∧
    (∀ ce, env.coverRun.err = some ce →
      (extractVideoFrameAtPercentage env.probeRun env.probeParsed env.frameRun
        obj.getPath tmp percent3).1.res.isSome →
      (generateVideoThumbnail env filePath).1 = .errExtraction ∧
      ((generateVideoThumbnail env filePath).2.all fun e => !e.isPut) = true) := by
  have key := generateVideoThumbnail_stagedTrace env filePath obj tmp hs hp hx ht
  refine ⟨?_, ?_, ?_, ?_, ?_, ?_, ?_, ?_⟩
  · rw [key]
    simp only [List.mem_append]
    exact Or.inr (thumbAfterStaging_coverMem ..)
  · intro hc
    have h1 : (extractVideoCover env.coverRun).res = none := by
      rw [extractVideoCover_res, hc]
    rw [key, List.all_eq_true]
    intro x hmem
    rw [List.mem_append] at hmem
    rcases hmem with hmem | hmem
    · simp only [List.mem_cons, List.not_mem_nil, or_false] at hmem
      rcases hmem with rfl | rfl | rfl <;> rfl
    · simp only [thumbAfterStaging, h1] at hmem
      have hm := thumbPublishPhase_mem env tmp (targetThumbDir filePath)
        (targetThumbName filePath) _ x hmem
      simp only [List.mem_singleton, List.mem_cons, List.not_mem_nil, or_false] at hm
      rcases hm with rfl | rfl | rfl | rfl <;> rfl
  · intro ce hc
    rw [key]
    simp only [List.mem_append]
    exact Or.inr (thumbAfterStaging_fallbackMem env obj.getPath tmp
      (targetThumbDir filePath) (targetThumbName filePath) ce hc _
      (frameEvents_probeMem ..))
  · intro ce d hc hd
    rw [key]
    simp only [List.mem_append]
    exact Or.inr (thumbAfterStaging_fallbackMem env obj.getPath tmp
      (targetThumbDir filePath) (targetThumbName filePath) ce hc _
      (frameEvents_frameMem env.probeRun env.probeParsed env.frameRun
        obj.getPath tmp percent3 d hd))
  · exact ⟨["-i", obj.getPath, "-map", "0:v:0", "-vframes", "1"],
      ["-preset", "default", "-y", tmp], rfl⟩
  · intro s
    exact ⟨["-ss", s, "-i", obj.getPath, "-vframes", "1", "-vf", "scale=320:-1"],
      ["-preset", "default", "-update", "1", "-y", tmp], rfl⟩
  · intro s
    simp [frameArgs]
  · intro ce hc hsome
    have h1 : (extractVideoCover env.coverRun).res = some ce := by
      rw [extractVideoCover_res, hc]
    obtain ⟨fe, h2⟩ := Option.isSome_iff_exists.mp hsome
    constructor
    · rw [key]
      simp [thumbAfterStaging, h1, h2]
    · rw [key, List.all_eq_true]
      intro x hmem
      rw [List.mem_append] at hmem
      rcases hmem with hmem | hmem
      · simp only [List.mem_cons, List.not_mem_nil, or_false] at hmem
        rcases hmem with rfl | rfl | rfl <;> rfl
      · simp only [thumbAfterStaging, h1, h2] at hmem
        simp only [List.cons_append, List.nil_append, List.mem_cons,
          List.mem_append, List.mem_singleton] at hmem
        have hf2 := execOnly_noput _ (frameEvents_execOnly env.probeRun env.probeParsed
          env.frameRun obj.getPath tmp percent3)
        rw [List.all_eq_true] at hf2
        rcases hmem with rfl | hmem | rfl | h0
        · rfl
        · exact hf2 x hmem
        · rfl
        · simp at h0

/-- Claim C2 witness: a run whose cover extraction fails with exit 1
and whose 3%-offset fallback also fails: both attempts appear in the
trace, the run ends in `errExtraction`, and nothing is written. -/
theorem claim2_fallback_chain_witness :
    Ev.exec "ffmpeg" (coverArgs "/mnt/data/video.mp4" "/tmp/video_thumb_1.webp")
      ∈ (generateVideoThumbnail thumbEnvBothFail "/data/video.mp4").2 ∧
    Ev.exec "ffprobe" (probeArgs "/mnt/data/video.mp4")
      ∈ (generateVideoThumbnail thumbEnvBothFail "/data/video.mp4").2 ∧
    (generateVideoThumbnail thumbEnvBothFail "/data/video.mp4").1 = .errExtraction ∧
    ((generateVideoThumbnail thumbEnvBothFail "/data/video.mp4").2.all
      fun e => !e.isPut) = true := by
  have h := claim2_fallback_chain thumbEnvBothFail "/data/video.mp4" vidObj
    "/tmp/video_thumb_1.webp" rfl (by decide) rfl rfl
  exact ⟨h.1, h.2.2.1 (.exitErr 1) rfl,
    (h.2.2.2.2.2.2.2 (.exitErr 1) rfl (by decide)).1,
    (h.2.2.2.2.2.2.2 (.exitErr 1) rfl (by decide)).2⟩

/-! ## Claim C3: idempotence via the existence check -/

/-- Claim C3: when the derived target (`.thumbnails` sibling directory,
source base name plus `.webp`) already exists, the orchestrator
terminates immediately after the two lookups: outcome `skippedExists`,
no subprocess invocation, no staging, no storage write, no error. -/
theorem claim3_idempotent (env : ThumbEnv) (filePath : String) (obj tobj : Obj)
    (hs : env.getSource = .ok obj) (hp : obj.getPath ≠ "")
    (hx : env.getTarget = .ok (some tobj)) :
    generateVideoThumbnail env filePath =
      (.skippedExists, [.fsGet filePath, .fsGet (targetThumbPath filePath)]) ∧
    ((generateVideoThumbnail env filePath).2.all
      fun e => !e.isExec && !e.isPut && !(e == Ev.createTemp)) = true := by
  have hc : checkFileExists env.getTarget = .ok true := by simp [checkFileExists, hx]
  have key : generateVideoThumbnail env filePath =
      (.skippedExists, [.fsGet filePath, .fsGet (targetThumbPath filePath)]) := by
    simp [generateVideoThumbnail, hs, hp, hc]
  refine ⟨key, ?_⟩
  rw [key]
  rfl

/-- Claim C3 witness: the skip branch evaluated on a concrete run
whose target thumbnail already exists. -/
theorem claim3_idempotent_witness :
    generateVideoThumbnail thumbEnvSkip "/data/video.mp4" =
      (.skippedExists, [.fsGet "/data/video.mp4", .fsGet "/data/.thumbnails/video.webp"]) := by
  have h := (claim3_idempotent thumbEnvSkip "/data/video.mp4" vidObj
    ⟨"/mnt/data/.thumbnails/video.webp"⟩ rfl (by decide) rfl).1
  rw [h]
  rfl

/-! ## Claim C4: the staged temp file is removed on every exit path -/

/-- Claim C4: in every run that created the staged temp file, the
trace contains its removal — regardless of which of the later steps
(extraction, validation, directory creation, opening, publishing)
succeeded or failed. -/
theorem claim4_cleanup (env : ThumbEnv) (filePath : String) (obj : Obj) (tmp : String)
    (hs : env.getSource = .ok obj) (hp : obj.getPath ≠ "")
    (hx : checkFileExists env.getTarget = .ok false)
    (ht : env.createTempRes = .ok tmp) :
    Ev.removeTemp tmp ∈ (generateVideoThumbnail env filePath).2 := by
  rw [generateVideoThumbnail_stagedTrace env filePath obj tmp hs hp hx ht]
  simp only [List.mem_append]
  exact Or.inr (thumbAfterStaging_remove ..)

/-- Claim C4 witness: the removal event observed on a concrete
successful run. -/
theorem claim4_cleanup_witness :
    Ev.removeTemp "/tmp/video_thumb_1.webp"
      ∈ (generateVideoThumbnail thumbEnvRun "/data/video.mp4").2 :=
  claim4_cleanup thumbEnvRun "/data/video.mp4" vidObj "/tmp/video_thumb_1.webp"
    rfl (by decide) rfl rfl

/-! ## Claim C5: validation gates publishing -/

/-- Claim C5: the staged artifact is published only after validation
succeeded on it — when validation fails the whole trace contains no
storage write, and conversely any `put` event in the trace implies the
validator returned success. -/
theorem claim5_validation_gate (env : ThumbEnv) (filePath : String) :
    ((validateWebPFile env.tempFile).isSome →
      ((generateVideoThumbnail env filePath).2.all fun e => !e.isPut) = true) ∧
    (∀ d n m, Ev.put d n m ∈ (generateVideoThumbnail env filePath).2 →
      validateWebPFile env.tempFile = none) := by
  constructor
  · exact thumb_noput env filePath
  · intro d n m hm
    by_contra hne
    have hv : (validateWebPFile env.tempFile).isSome :=
      Option.ne_none_iff_isSome.mp hne
    have hall := thumb_noput env filePath hv
    rw [List.all_eq_true] at hall
    have h2 := hall _ hm
    simp [Ev.isPut] at h2

/-- Claim C5 witness: a run whose staged artifact is empty (validation
fails) writes nothing to storage. -/
theorem claim5_validation_gate_witness :
    ((generateVideoThumbnail thumbEnvInvalid "/data/video.mp4").2.all
      fun e => !e.isPut) = true :=
  (claim5_validation_gate thumbEnvInvalid "/data/video.mp4").1 (by decide)

/-! ## Shared lemmas about the two ingress handlers -/

/-- `FsForm` schedules no goroutine on any path. -/
theorem fsform_noSchedule (env : FormEnv) :
    ((FsForm env).2.all fun e => !e.isSchedule) = true := by
  simp only [FsForm]
  repeat' split
  all_goals rfl

/-- `FsStream` performs the destination existence lookup on no path
when the `Overwrite` header is not exactly `"false"`. -/
theorem fsstream_noExistsCheck (env : StreamEnv) (hov : env.overwriteHeader ≠ "false") :
    ((FsStream env).2.all fun e => !e.isExistsCheck) = true := by
  have hov2 : overwriteFlag env.overwriteHeader = true := by
    simp [overwriteFlag, bne_iff_ne, hov]
  simp only [FsStream]
  repeat' split
  all_goals first | rfl | simp_all

/-- `FsForm` performs the destination existence lookup on no path when
the `Overwrite` header is not exactly `"false"`. -/
theorem fsform_noExistsCheck (env : FormEnv) (hov : env.overwriteHeader ≠ "false") :
    ((FsForm env).2.all fun e => !e.isExistsCheck) = true := by
  have hov2 : overwriteFlag env.overwriteHeader = true := by
    simp [overwriteFlag, bne_iff_ne, hov]
  simp only [FsForm]
  repeat' split
  all_goals first | rfl | simp_all

/-! ## Claim C1: which transport schedules derivation -/

/-- Claim C1 counterexample: a multipart-form upload of
`video/mp4`-typed content whose direct write succeeds, yet whose
`FsForm` run contains no goroutine-scheduling event at all — the form
transport never triggers the Derivation Orchestrator. -/
theorem claim1_counterexample :
    strStartsWith (formMime formEnvVideo) "video/" = true ∧
    (FsForm formEnvVideo).1 = .success ∧
    ((FsForm formEnvVideo).2.all fun e => !e.isSchedule) = true :=
  ⟨by decide, by decide, by decide⟩

/-- Claim C1 amended: only the raw-body-stream transport schedules
derivation.  For every `FsStream` request whose path resolves, whose
overwrite guard passes, whose size parses and whose write (direct or
task) succeeds, a `video/`-prefixed MIME type leads to
`generateVideoThumbnail` being scheduled on `context.Background()` —
a context independent of the request; the multipart-form transport
(`FsForm`) schedules nothing on any path. -/
theorem claim1_amended :
    (∀ env : StreamEnv, ∀ p0 path : String,
      env.unescapeRes = .ok p0 →
      env.joinRes = .ok path →
      (env.overwriteHeader = "false" → env.getDest = none) →
      (env.contentLengthHeader = "" ∨ ∃ k, env.sizeParse = .ok k) →
      strStartsWith (streamMime env) "video/" = true →
      (env.asTaskHeader = "true" → ∃ b, env.putTaskRes = .ok b) →
      (env.asTaskHeader ≠ "true" → env.putRes = none) →
      Ev.goSchedule .background path ∈ (FsStream env).2) ∧
    (∀ env : FormEnv, ((FsForm env).2.all fun e => !e.isSchedule) = true) := by
  constructor
  · intro env p0 path h1 h2 hov hsize hmime htask hdirect
    by_cases ho : env.overwriteHeader = "false"
    · have hd := hov ho
      rcases hsize with hcl | ⟨k, hk⟩ <;> by_cases hat : env.asTaskHeader = "true"
      · obtain ⟨b, hb⟩ := htask hat
        simp [FsStream, overwriteFlag, h1, h2, ho, hd, hcl, hat, hb, hmime]
      · have hpr := hdirect hat
        simp [FsStream, overwriteFlag, h1, h2, ho, hd, hcl, hat, hpr, hmime]
      · obtain ⟨b, hb⟩ := htask hat
        simp [FsStream, overwriteFlag, h1, h2, ho, hd, hk, hat, hb, hmime]
        by_cases hcl2 : env.contentLengthHeader = "" <;> simp [hcl2]
      · have hpr := hdirect hat
        simp [FsStream, overwriteFlag, h1, h2, ho, hd, hk, hat, hpr, hmime]
        by_cases hcl2 : env.contentLengthHeader = "" <;> simp [hcl2]
    · rcases hsize with hcl | ⟨k, hk⟩ <;> by_cases hat : env.asTaskHeader = "true"
      · obtain ⟨b, hb⟩ := htask hat
        simp [FsStream, overwriteFlag, h1, h2, ho, hcl, hat, hb, hmime]
      · have hpr := hdirect hat
        simp [FsStream, overwriteFlag, h1, h2, ho, hcl, hat, hpr, hmime]
      · obtain ⟨b, hb⟩ := htask hat
        simp [FsStream, overwriteFlag, h1, h2, ho, hk, hat, hb, hmime]
        by_cases hcl2 : env.contentLengthHeader = "" <;> simp [hcl2]
      · have hpr := hdirect hat
        simp [FsStream, overwriteFlag, h1, h2, ho, hk, hat, hpr, hmime]
        by_cases hcl2 : env.contentLengthHeader = "" <;> simp [hcl2]
  · exact fsform_noSchedule

/-- Claim C1 amended witness: a concrete raw-stream video upload whose
trace schedules the orchestrator on the background context. -/
theorem claim1_amended_witness :
    Ev.goSchedule .background "/user/movie.mp4" ∈ (FsStream streamEnvVideo).2 :=
  claim1_amended.1 streamEnvVideo "/movie.mp4" "/user/movie.mp4" rfl rfl
    (fun h => absurd h (by decide)) (Or.inr ⟨1024, rfl⟩) (by decide)
    (fun h => absurd h (by decide)) (fun _ => rfl)

/-! ## Claim C8: AlreadyExists short-circuit -/

/-- Claim C8: in either transport, a request whose path resolves, with
the `Overwrite` header exactly `"false"` and an object present at the
destination, responds 403 `"file exists"` and its whole trace is the
existence lookup followed only by the deferred transport body drain:
no write, no form parse, nothing consumes the content reader. -/
theorem claim8_alreadyExists :
    (∀ env : StreamEnv, ∀ p0 path : String, ∀ obj : Obj,
      env.unescapeRes = .ok p0 → env.joinRes = .ok path →
      env.overwriteHeader = "false" → env.getDest = some obj →
      FsStream env = (.errStrResp 403 "file exists", [.existsCheck path, .drainBody])) ∧
    (∀ env : FormEnv, ∀ p0 path : String, ∀ obj : Obj,
      env.unescapeRes = .ok p0 → env.joinRes = .ok path →
      env.overwriteHeader = "false" → env.getDest = some obj →
      FsForm env = (.errStrResp 403 "file exists", [.existsCheck path, .drainBody])) := by
  constructor
  · intro env p0 path obj h1 h2 h3 h4
    simp [FsStream, overwriteFlag, h1, h2, h3, h4]
  · intro env p0 path obj h1 h2 h3 h4
    simp [FsForm, overwriteFlag, h1, h2, h3, h4]

/-- Claim C8 witness: both handlers evaluated on concrete requests
with overwrite disabled and an existing destination. -/
theorem claim8_alreadyExists_witness :
    FsStream streamEnvExists =
      (.errStrResp 403 "file exists", [.existsCheck "/user/movie.mp4", .drainBody]) ∧
    FsForm formEnvExists =
      (.errStrResp 403 "file exists", [.existsCheck "/user/movie.mp4", .drainBody]) :=
  ⟨claim8_alreadyExists.1 streamEnvExists "/movie.mp4" "/user/movie.mp4"
      ⟨"/abs/movie.mp4"⟩ rfl rfl rfl rfl,
   claim8_alreadyExists.2 formEnvExists "/movie.mp4" "/user/movie.mp4"
      ⟨"/abs/movie.mp4"⟩ rfl rfl rfl rfl⟩

/-! ## Claim C10: overwrite defaults to enabled -/

/-- Claim C10: in both transports the overwrite flag is false exactly
when the `Overwrite` header is the string `"false"`; with any other
value (including an absent header, read as the empty string) the
destination existence lookup — the only source of `AlreadyExists` — is
skipped entirely. -/
theorem claim10_overwrite_default (h : String) (envS : StreamEnv) (envF : FormEnv)
    (hs : envS.overwriteHeader ≠ "false") (hf : envF.overwriteHeader ≠ "false") :
    (overwriteFlag h = false ↔ h = "false") ∧
    ((FsStream envS).2.all fun e => !e.isExistsCheck) = true ∧
    ((FsForm envF).2.all fun e => !e.isExistsCheck) = true :=
  ⟨by simp [overwriteFlag, bne_eq_false_iff_eq],
   fsstream_noExistsCheck envS hs,
   fsform_noExistsCheck envF hf⟩

/-- Claim C10 witness: with the header absent (empty string) both
handlers skip the existence lookup, and the parse is false exactly on
`"false"`. -/
theorem claim10_overwrite_default_witness :
    (overwriteFlag "false" = false ↔ ("false" : String) = "false") ∧
    ((FsStream streamEnvVideo).2.all fun e => !e.isExistsCheck) = true ∧
    ((FsForm formEnvVideo).2.all fun e => !e.isExistsCheck) = true :=
  claim10_overwrite_default "false" streamEnvVideo formEnvVideo
    (by decide) (by decide)

end OpenList
